import Mathlib

/-
Verification of the analysis engine of dirmon (src/main.go).

The engine's three entry points are `provideCleanupAdvice`, `findDuplicateFiles`
and `analyzeDiskUsage` (spec names: adviseCleanup, findDuplicates, analyzeUsage).
This file shallowly embeds those functions and the Go library primitives they
rely on (`filepath.Walk`, `os.ReadDir`, `filepath.Ext`, `strings.ToLower`, ...)
and proves / refutes the specified properties.

Modelling conventions:
  * Go strings are modelled as `List Char` (`GoStr`); names in the claims are
    ASCII, where Go's `strings.ToLower` agrees with `Char.toLower` per rune.
  * `int64` / `int` quantities (sizes, times in nanoseconds, thresholds) are
    modelled as `Int`; the inputs in the claims are far from the 2^63 overflow
    boundary, which is out of scope here.
  * A filesystem snapshot is a tree `FsNode`.  Per-entry accessibility is
    explicit: `lstatOk` = the parent's lstat of the entry succeeds, a
    directory's `accessible` = reading its entry list succeeds, `readOk` =
    opening/reading the file's content (for hashing) succeeds.  A root that
    does not exist (or whose lstat fails) is `Option.none`.
  * The MD5 digest (`calculateMD5`) depends only on the file content; it is
    passed as an explicit function parameter `digest : List Nat → GoStr`,
    since the code's behaviour on duplicate groups depends exactly on its
    collision behaviour.
-/

abbrev GoStr := List Char

/-- strings.ToLower, ASCII fragment (Char.toLower is exactly the ASCII case map). -/
def strToLower (s : GoStr) : GoStr := s.map Char.toLower

/-- strings.Contains: sub occurs contiguously inside s. -/
def strContains (s sub : GoStr) : Bool := s.tails.any fun t => sub.isPrefixOf t

/-- strings.HasSuffix. -/
def hasSuffixGo (s suf : GoStr) : Bool := suf.isSuffixOf s

/-- strings.HasPrefix. -/
def hasPrefixGo (s pre : GoStr) : Bool := pre.isPrefixOf s

/-- Auxiliary scan for filepath.Ext: walk the name from its last character
towards the front; on the first dot return the dot plus what was scanned. -/
def extScan : GoStr → GoStr → GoStr
  | [], _ => []
  | c :: rest, acc => if c = '.' then '.' :: acc else extScan rest (c :: acc)

/-- filepath.Ext applied to a path whose final element is `name` (path
components contain no separator): the tail of the final element starting at
its last dot, empty if the final element has no dot. -/
def extGo (name : GoStr) : GoStr := extScan name.reverse []

/-- isTempFile from src/main.go lines 1400-1408. -/
def isTempFile (filename : GoStr) : Bool :=
  let lowerName := strToLower filename
  hasSuffixGo lowerName ".tmp".toList ||
  hasSuffixGo lowerName ".temp".toList ||
  hasPrefixGo lowerName "~".toList ||
  hasPrefixGo lowerName "temp_".toList ||
  strContains lowerName "cache".toList ||
  hasSuffixGo lowerName ".bak".toList

/-- isLogFile from src/main.go lines 1410-1416. -/
def isLogFile (filename : GoStr) : Bool :=
  let lowerName := strToLower filename
  hasSuffixGo lowerName ".log".toList ||
  hasSuffixGo lowerName ".log.gz".toList ||
  hasSuffixGo lowerName ".logs".toList ||
  strContains lowerName "debug".toList

/-- The rule that fired for a cleanup candidate.  The source builds a reason
string ("Temporary file", "Log file", "Not modified for N days",
"Large file (S)"); the N and S payloads come from float formatting and are not
modelled — the claims only concern which rule fired. -/
inductive Reason where
  | temporary : Reason
  | log : Reason
  | stale : Reason
  | oversize : Reason
deriving DecidableEq, Repr

/-- An entry returned by os.ReadDir, together with the result of its
(lazy) Info() call: `infoOk = false` models `file.Info()` returning an error
(that entry is skipped by the classifier loop). -/
structure DirEntry where
  name : GoStr
  isDir : Bool
  size : Int
  mtime : Int
  infoOk : Bool
deriving DecidableEq, Repr

/-- time.Duration(ageThreshold*24) * time.Hour, in nanoseconds.  -/
def ageThresholdDuration (ageThreshold : Int) : Int :=
  ageThreshold * 24 * 3600000000000

/-- int64(sizeThreshold * 1024 * 1024). -/
def sizeThresholdBytes (sizeThreshold : Int) : Int :=
  sizeThreshold * 1024 * 1024

/-- The if / else-if reason chain of provideCleanupAdvice
(src/main.go lines 1146-1155), as a function of one directory entry.
`now - e.mtime` is `now.Sub(info.ModTime())` in nanoseconds. -/
def cleanupReason (now ageThreshold sizeThreshold : Int) (e : DirEntry) :
    Option Reason :=
  if isTempFile e.name then some Reason.temporary
  else if isLogFile e.name then some Reason.log
  else if now - e.mtime > ageThresholdDuration ageThreshold ∧ e.size > 0 then
    some Reason.stale
  else if e.size > sizeThresholdBytes sizeThreshold then some Reason.oversize
  else none

/-- The candidate-selection loop of provideCleanupAdvice (lines 1132-1167):
directories are skipped, entries whose Info() errors are skipped, and an entry
is recommended iff its reason chain produces a reason. -/
def cleanupCandidates (now ageThreshold sizeThreshold : Int)
    (entries : List DirEntry) : List DirEntry :=
  entries.filter fun e =>
    !e.isDir && e.infoOk &&
      (cleanupReason now ageThreshold sizeThreshold e).isSome

/-- totalPotentialSavings: the sum of candidate sizes. -/
def totalPotentialSavings (now ageThreshold sizeThreshold : Int)
    (entries : List DirEntry) : Int :=
  (cleanupCandidates now ageThreshold sizeThreshold entries).foldl
    (fun acc e => acc + e.size) 0

/-- Metadata of a file node in the snapshot. -/
structure FileMeta where
  name : GoStr
  size : Int
  mtime : Int
  content : List Nat
  lstatOk : Bool
  readOk : Bool
deriving DecidableEq, Repr

/-- A filesystem snapshot: `dir name accessible children`, where
`accessible = false` means reading the directory's entry list fails. -/
inductive FsNode where
  | file : FileMeta → FsNode
  | dir : GoStr → Bool → List FsNode → FsNode
deriving Repr

/-- Name of a node. -/
def FsNode.nameOf : FsNode → GoStr
  | .file m => m.name
  | .dir n _ _ => n

/-- Whether the parent's lstat of this entry succeeds (directories lstat
fine in this model; their failure mode is an unreadable entry list). -/
def FsNode.lstatOk : FsNode → Bool
  | .file m => m.lstatOk
  | .dir _ _ _ => true

/-- Whether this node is a file node. -/
def FsNode.isFile : FsNode → Bool
  | .file _ => true
  | .dir _ _ _ => false

/-- One record per file visited by a walk: the path of the containing
directory (components below and including the root), the file name, and the
lstat metadata. -/
structure FileRec where
  dirPath : List GoStr
  name : GoStr
  size : Int
  mtime : Int
  content : List Nat
  readOk : Bool
deriving DecidableEq, Repr

/-- Full path components of a record. -/
def FileRec.path (r : FileRec) : List GoStr := r.dirPath ++ [r.name]

def FileMeta.toRec (m : FileMeta) (p : List GoStr) : FileRec :=
  ⟨p, m.name, m.size, m.mtime, m.content, m.readOk⟩

mutual
/-- filepath.Walk with the findDuplicateFiles callback
(src/main.go lines 1199-1209) inlined, on the node whose parent-directory
path is `p` (the node's own lstat already succeeded).  The callback returns
any incoming error, so walking aborts with the error on the first entry whose
lstat fails or whose directory listing fails; a visited non-directory entry
is appended to the size map's bucket for its size (modelled as the list of
visited file records in walk order — bucketing is a separate pure step). -/
def walkDupNode : List GoStr → FsNode → Except Unit (List FileRec)
  | p, .file m => .ok [m.toRec p]
  | p, .dir n accessible children =>
      if accessible then walkDupKids (p ++ [n]) children else .error ()

/-- The child loop of filepath.Walk for the findDuplicateFiles callback:
each child is lstat-ed; a failing lstat makes the callback return the error,
aborting the whole walk. -/
def walkDupKids : List GoStr → List FsNode → Except Unit (List FileRec)
  | _, [] => .ok []
  | p, c :: cs =>
      if c.lstatOk then
        match walkDupNode p c with
        | .error e => .error e
        | .ok rs =>
            match walkDupKids p cs with
            | .error e => .error e
            | .ok rest => .ok (rs ++ rest)
      else .error ()
end

/-- The first pass of findDuplicateFiles: filepath.Walk from the root.
A root whose lstat fails (nonexistent / unreadable path) is `none`: the
callback is handed the error and returns it, so the pass fails. -/
def dupRecords : Option FsNode → Except Unit (List FileRec)
  | none => .error ()
  | some root => walkDupNode [] root

mutual
/-- filepath.Walk with the analyzeDiskUsage callback
(src/main.go lines 1288-1315) inlined.  The callback returns nil on every
error, so an entry whose lstat fails is skipped, a directory whose listing
fails is skipped whole, and the walk never aborts. -/
def walkUsageNode : List GoStr → FsNode → List FileRec
  | p, .file m => [m.toRec p]
  | p, .dir n accessible children =>
      if accessible then walkUsageKids (p ++ [n]) children else []

/-- Child loop of filepath.Walk for the analyzeDiskUsage callback: children
whose lstat fails are skipped, the loop continues. -/
def walkUsageKids : List GoStr → List FsNode → List FileRec
  | _, [] => []
  | p, c :: cs =>
      (if c.lstatOk then walkUsageNode p c else []) ++ walkUsageKids p cs
end

/-- The records aggregated by analyzeDiskUsage: filepath.Walk from the root.
The callback swallows the root's lstat error (`return nil`, line 1290) and
explicitly skips the root entry itself (line 1294), so a missing root yields
no records (and, below, no error), and a root that is itself a file
contributes nothing. -/
def usageRecords : Option FsNode → List FileRec
  | none => []
  | some (.file _) => []
  | some (.dir n accessible children) =>
      if accessible then walkUsageKids [n] children else []

/-- The content of the size map filesBySize for key `s` (lines 1197-1205):
exactly the walked non-directory records of size `s`, in discovery order. -/
def sizeBucket (rs : List FileRec) (s : Int) : List FileRec :=
  rs.filter fun r => r.size == s

/-- The files handed to calculateMD5 by the second pass (lines 1218-1229):
every file lying in a bucket with more than one member and size > 0.  (The Go
code visits buckets in unspecified map order; which files are hashed is
order-independent, so the discovery-order list represents the set.) -/
def hashedFiles (rs : List FileRec) : List FileRec :=
  rs.filter fun r => decide (1 < (sizeBucket rs r.size).length) && decide (0 < r.size)

/-- Membership of the shared digest map duplicateGroups for digest `h`
(line 1228): all hashed files whose read succeeded and whose content digests
to `h`, one shared map across every size bucket.  A file whose read fails is
skipped with a warning (`continue`, line 1226). -/
def groupMembers (digest : List Nat → GoStr) (rs : List FileRec) (h : GoStr) :
    List FileRec :=
  (hashedFiles rs).filter fun r => r.readOk && digest r.content == h

/-- The keys of duplicateGroups (first-occurrence order; Go iterates them in
unspecified map order, and every claim below is order-invariant). -/
def digestKeys (digest : List Nat → GoStr) (rs : List FileRec) : List GoStr :=
  (((hashedFiles rs).filter fun r => r.readOk).map fun r => digest r.content).dedup

/-- The duplicate groups emitted by the display loop (lines 1240-1260): the
digest-map entries with more than one member. -/
def emittedGroups (digest : List Nat → GoStr) (rs : List FileRec) :
    List (GoStr × List FileRec) :=
  ((digestKeys digest rs).map fun h => (h, groupMembers digest rs h)).filter
    fun g => decide (1 < g.2.length)

/-- Output of findDuplicateFiles relevant to the claims: the set of files it
hashed and the emitted duplicate groups. -/
structure DupOutput where
  records : List FileRec
  hashed : List FileRec
  groups : List (GoStr × List FileRec)
deriving Repr

/-- findDuplicateFiles (src/main.go lines 1195-1273): walk (propagating any
walk error to the caller, lines 1211-1213), bucket by size, hash multi-member
positive-size buckets into one shared digest map, display groups of ≥ 2. -/
def findDuplicateFiles (digest : List Nat → GoStr) (root : Option FsNode) :
    Except Unit DupOutput :=
  match dupRecords root with
  | .error e => .error e
  | .ok rs => .ok ⟨rs, hashedFiles rs, emittedGroups digest rs⟩

/-- Add `v` to the total stored under `k` in an accumulation map, modelled as
an association list with first-insertion key order (the key order is never
relied on: Go iterates these maps in unspecified order). -/
def bump [BEq κ] (m : List (κ × Int)) (k : κ) (v : Int) : List (κ × Int) :=
  match m with
  | [] => [(k, v)]
  | (k', v') :: rest =>
      if k' == k then (k', v' + v) :: rest else (k', v') :: bump rest k v

/-- The normalized type key of a record (lines 1303-1306):
strings.ToLower(filepath.Ext(filePath)), with the sentinel for no extension. -/
def typeKey (r : FileRec) : GoStr :=
  let ext := strToLower (extGo r.name)
  if ext = [] then "[no extension]".toList else ext

/-- typeStats: cumulative bytes per normalized extension (line 1307). -/
def typeStats (rs : List FileRec) : List (GoStr × Int) :=
  rs.foldl (fun m r => bump m (typeKey r) r.size) []

/-- dirStats: cumulative bytes per immediate parent directory
(lines 1310-1311); filepath.Dir of the record's full path is its dirPath. -/
def dirStats (rs : List FileRec) : List (List GoStr × Int) :=
  rs.foldl (fun m r => bump m r.dirPath r.size) []

/-- totalSize accumulation (line 1300). -/
def sizeSum (rs : List FileRec) : Int :=
  rs.foldl (fun acc r => acc + r.size) 0

/-- The aggregate result of analyzeDiskUsage before presentation. -/
structure UsageStats where
  byType : List (GoStr × Int)
  byDir : List (List GoStr × Int)
  totalSize : Int
deriving Repr

/-- analyzeDiskUsage (src/main.go lines 1276-1397), up to presentation: the
walk callback returns nil on every error, so filepath.Walk always returns nil
and the function never reports an error — a nonexistent root produces a
successful empty analysis. -/
def analyzeDiskUsage (root : Option FsNode) : Except Unit UsageStats :=
  let rs := usageRecords root
  .ok ⟨typeStats rs, dirStats rs, sizeSum rs⟩

/-- One insertion step of the sort performed by sort.Slice with the strictly
descending size comparator (lines 1340-1342 and 1368-1370): the new element
moves left only past strictly smaller totals, so elements with equal totals
keep their relative input order (Go's sort.Slice runs exactly this insertion
sort for the slice lengths involved below). -/
def insertDesc (x : κ × Int) : List (κ × Int) → List (κ × Int)
  | [] => [x]
  | y :: ys => if x.2 > y.2 then x :: y :: ys else y :: insertDesc x ys

/-- Sorting a stats listing descending by byte total.  Its input is the map
iteration order actually encountered, which Go leaves unspecified (and
deliberately randomizes): theorems below quantify over all permutations of
the stats map. -/
def sortBySizeDesc (l : List (κ × Int)) : List (κ × Int) :=
  l.foldl (fun acc x => insertDesc x acc) []

/-- os.ReadDir: fails on a nonexistent root or a root that is not a readable
directory; otherwise returns the immediate children as directory entries.
(Go sorts the entries by name; no claim depends on entry order, so the
snapshot's order is kept.) -/
def readDirGo : Option FsNode → Except Unit (List DirEntry)
  | none => .error ()
  | some (.file _) => .error ()
  | some (.dir _ accessible children) =>
      if accessible then
        .ok (children.map fun c =>
          match c with
          | .file m => ⟨m.name, false, m.size, m.mtime, m.lstatOk⟩
          | .dir n _ _ => ⟨n, true, 0, 0, true⟩)
      else .error ()

/-- The confirmation test of provideCleanupAdvice (line 1181):
strings.ToLower(response) is "y" or "yes". -/
def yesResponse (response : GoStr) : Bool :=
  strToLower response == "y".toList || strToLower response == "yes".toList

/-- Remove the named immediate child files of the root (the os.Remove loop of
lines 1182-1188; every recommended path is root/name for a non-directory
immediate child). -/
def removeFiles : Option FsNode → List GoStr → Option FsNode
  | some (.dir n accessible children), names =>
      some (.dir n accessible (children.filter fun c =>
        !(c.isFile && names.contains c.nameOf)))
  | root, _ => root

/-- provideCleanupAdvice (src/main.go lines 1109-1192): read the root's
immediate entries (propagating a read error), classify them, and — when there
is at least one recommendation and the operator answers y/yes at the prompt —
delete the recommended files.  Returns the filesystem after the call together
with the recommended paths (relative to the root). -/
def provideCleanupAdvice (now ageThreshold sizeThreshold : Int)
    (root : Option FsNode) (response : GoStr) :
    Except Unit (Option FsNode × List (List GoStr)) :=
  match readDirGo root with
  | .error e => .error e
  | .ok entries =>
      let cands := cleanupCandidates now ageThreshold sizeThreshold entries
      let recommendedFiles := cands.map fun c => [c.name]
      if cands.isEmpty then .ok (root, [])
      else if yesResponse response then
        .ok (removeFiles root (cands.map fun c => c.name), recommendedFiles)
      else .ok (root, recommendedFiles)

/-- The filesystem state after a provideCleanupAdvice call (unchanged when
the call failed before classifying anything). -/
def fsAfterCleanup (now ageThreshold sizeThreshold : Int)
    (root : Option FsNode) (response : GoStr) : Option FsNode :=
  match provideCleanupAdvice now ageThreshold sizeThreshold root response with
  | .error _ => root
  | .ok (fs, _) => fs

mutual
/-- Count of file nodes in a node (used to witness filesystem change). -/
def countFilesNode : FsNode → Nat
  | .file _ => 1
  | .dir _ _ children => countFilesKids children

def countFilesKids : List FsNode → Nat
  | [] => 0
  | c :: cs => countFilesNode c + countFilesKids cs
end

/-- Count of file nodes in a snapshot. -/
def countFiles : Option FsNode → Nat
  | none => 0
  | some n => countFilesNode n

mutual
/-- Full relative paths of every file node at or below a node whose
parent-directory path is `p` (accessibility ignored: this enumerates the
snapshot itself). -/
def filesUnder : List GoStr → FsNode → List (List GoStr)
  | p, .file m => [p ++ [m.name]]
  | p, .dir n _ children => filesUnderKids (p ++ [n]) children

def filesUnderKids : List GoStr → List FsNode → List (List GoStr)
  | _, [] => []
  | p, c :: cs => filesUnder p c ++ filesUnderKids p cs
end

/-- The files lying strictly inside subdirectories of the root, as paths
relative to the root. -/
def subdirFiles : Option FsNode → List (List GoStr)
  | some (.dir _ _ children) =>
      (children.filter fun c => !c.isFile).foldr
        (fun c acc => filesUnder [] c ++ acc) []
  | _ => []

mutual
/-- Every entry in the snapshot is accessible: lstat succeeds on every entry
and every directory's entry list is readable. -/
def allAccessible : FsNode → Bool
  | .file m => m.lstatOk
  | .dir _ accessible children => accessible && allAccessibleKids children

def allAccessibleKids : List FsNode → Bool
  | [] => true
  | c :: cs => allAccessible c && allAccessibleKids cs
end

/-- Whether an Except result is a success. -/
def isOkE : Except Unit α → Bool
  | .ok _ => true
  | .error _ => false

/-
Claim theorems.
-/

/-- isTempFile looks only at the lower-cased filename. -/
theorem isTempFile_lower_eq (a b : GoStr) (h : strToLower a = strToLower b) :
    isTempFile a = isTempFile b := by
  simp only [isTempFile]
  rw [h]

/-- isLogFile looks only at the lower-cased filename. -/
theorem isLogFile_lower_eq (a b : GoStr) (h : strToLower a = strToLower b) :
    isLogFile a = isLogFile b := by
  simp only [isLogFile]
  rw [h]

/-- C4: the cleanup rules are evaluated case-insensitively in the fixed order
Temporary, Log, Stale, Oversize, and the first matching rule determines the
single reported reason; a file matching both the Temporary and the Stale rule
is reported Temporary, and a file matching no rule gets no reason (so it is
not a candidate). -/
theorem claim_C4 (now ageThreshold sizeThreshold : Int) (e : DirEntry) :
    (isTempFile e.name = true →
      cleanupReason now ageThreshold sizeThreshold e = some Reason.temporary) ∧
    (isTempFile e.name = false → isLogFile e.name = true →
      cleanupReason now ageThreshold sizeThreshold e = some Reason.log) ∧
    (isTempFile e.name = false → isLogFile e.name = false →
      (now - e.mtime > ageThresholdDuration ageThreshold ∧ e.size > 0) →
      cleanupReason now ageThreshold sizeThreshold e = some Reason.stale) ∧
    (isTempFile e.name = false → isLogFile e.name = false →
      ¬(now - e.mtime > ageThresholdDuration ageThreshold ∧ e.size > 0) →
      e.size > sizeThresholdBytes sizeThreshold →
      cleanupReason now ageThreshold sizeThreshold e = some Reason.oversize) ∧
    (isTempFile e.name = false → isLogFile e.name = false →
      ¬(now - e.mtime > ageThresholdDuration ageThreshold ∧ e.size > 0) →
      ¬(e.size > sizeThresholdBytes sizeThreshold) →
      cleanupReason now ageThreshold sizeThreshold e = none) ∧
    (∀ e' : DirEntry, strToLower e'.name = strToLower e.name →
      e'.size = e.size → e'.mtime = e.mtime →
      cleanupReason now ageThreshold sizeThreshold e' =
        cleanupReason now ageThreshold sizeThreshold e) := by
  refine ⟨fun h1 => by simp [cleanupReason, h1],
    fun h1 h2 => by simp [cleanupReason, h1, h2],
    fun h1 h2 h3 => by simp [cleanupReason, h1, h2, h3],
    fun h1 h2 h3 h4 => by simp [cleanupReason, h1, h2, h3, h4],
    fun h1 h2 h3 h4 => by simp [cleanupReason, h1, h2, h3, h4],
    fun e' hn hs hm => ?_⟩
  simp only [cleanupReason]
  rw [isTempFile_lower_eq _ _ hn, isLogFile_lower_eq _ _ hn, hs, hm]

/-- C4 witness: "Cache.dat" matches the Temporary rule (case-insensitively,
via "cache") and also the Stale rule (200 days old, positive size, 90-day
threshold); the reported reason is Temporary. -/
theorem claim_C4_witness :
    cleanupReason (200 * 24 * 3600000000000) 90 100
      ⟨"Cache.dat".toList, false, 10, 0, true⟩ = some Reason.temporary :=
  (claim_C4 (200 * 24 * 3600000000000) 90 100
    ⟨"Cache.dat".toList, false, 10, 0, true⟩).1 (by decide)

/-- C5: a 0-byte file is never flagged Stale regardless of its age (size > 0
guard), and with thresholds 90 days / 100 MB a 50 MB file modified 10 days
ago whose name matches neither name rule gets no reason at all. -/
theorem claim_C5 (now ageThreshold sizeThreshold : Int) (e : DirEntry) :
    (e.size = 0 →
      cleanupReason now ageThreshold sizeThreshold e ≠ some Reason.stale) ∧
    (isTempFile e.name = false → isLogFile e.name = false →
      e.size = 50 * 1024 * 1024 →
      now - e.mtime = 10 * 24 * 3600000000000 →
      cleanupReason now 90 100 e = none) := by
  constructor
  · intro hz
    simp only [cleanupReason, hz]
    split
    · simp
    · split
      · simp
      · split
        · simp_all
        · split <;> simp
  · intro h1 h2 hs hm
    simp only [cleanupReason, h1, h2]
    rw [hs, hm]
    norm_num [ageThresholdDuration, sizeThresholdBytes]

/-- C5 witness: the 0-byte, 1000-day-old "data.csv" is not flagged Stale, and
the 10-day-old 50 MB "data.csv" is no candidate under thresholds 90 / 100. -/
theorem claim_C5_witness :
    (cleanupReason (1000 * 24 * 3600000000000) 90 100
        ⟨"data.csv".toList, false, 0, 0, true⟩ ≠ some Reason.stale) ∧
    (cleanupReason (10 * 24 * 3600000000000) 90 100
        ⟨"data.csv".toList, false, 50 * 1024 * 1024, 0, true⟩ = none) :=
  ⟨(claim_C5 (1000 * 24 * 3600000000000) 90 100
      ⟨"data.csv".toList, false, 0, 0, true⟩).1 rfl,
   (claim_C5 (10 * 24 * 3600000000000) 90 100
      ⟨"data.csv".toList, false, 50 * 1024 * 1024, 0, true⟩).2
     (by decide) (by decide) rfl (by decide)⟩

/-- A root directory holding one temp file, used to exhibit the deletion
performed by provideCleanupAdvice after an affirmative confirmation. -/
def cleanupCexTree : FsNode :=
  .dir "root".toList true [.file ⟨"junk.tmp".toList, 5, 0, [1], true, true⟩]

/-- C1 counterexample: provideCleanupAdvice is not deletion-free.  On a root
holding the single file "junk.tmp" (flagged Temporary), when the operator
answers "y" at the built-in prompt the function itself calls os.Remove on the
candidate (src/main.go lines 1177-1189): afterwards the root has 0 files
instead of 1, so the filesystem state is changed by the operation. -/
theorem claim_C1_counterexample :
    countFiles (fsAfterCleanup 0 90 100 (some cleanupCexTree) "y".toList) = 0 ∧
    countFiles (some cleanupCexTree) = 1 ∧
    fsAfterCleanup 0 90 100 (some cleanupCexTree) "y".toList ≠
      some cleanupCexTree := by
  refine ⟨rfl, rfl, fun h => ?_⟩
  have h0 : countFiles (fsAfterCleanup 0 90 100 (some cleanupCexTree)
      "y".toList) = 0 := rfl
  rw [h] at h0
  exact absurd h0 (by decide)

/-- C1 amended: provideCleanupAdvice mutates nothing unless the operator
explicitly confirms deletion with "y"/"yes" at its prompt; for any other
response (and always when there is no candidate) the filesystem is unchanged
and only candidate paths are reported. -/
theorem claim_C1_amended (now ageThreshold sizeThreshold : Int)
    (root : Option FsNode) (response : GoStr)
    (h : yesResponse response = false) :
    fsAfterCleanup now ageThreshold sizeThreshold root response = root := by
  unfold fsAfterCleanup provideCleanupAdvice
  cases hr : readDirGo root with
  | error e => simp
  | ok entries =>
      by_cases hc : cleanupCandidates now ageThreshold sizeThreshold entries = []
      · simp [h, hc]
      · simp [h, hc]

/-- C1 witness: answering "n" on the same root leaves the filesystem
unchanged. -/
theorem claim_C1_witness :
    fsAfterCleanup 0 90 100 (some cleanupCexTree) "n".toList =
      some cleanupCexTree :=
  claim_C1_amended 0 90 100 (some cleanupCexTree) "n".toList (by decide)

mutual
/-- Every file path produced under a node is strictly longer than the path of
the node's parent directory. -/
theorem filesUnder_length : ∀ (p : List GoStr) (n : FsNode) (q : List GoStr),
    q ∈ filesUnder p n → p.length < q.length
  | p, .file m, q, hq => by
      simp only [filesUnder, List.mem_singleton] at hq
      subst hq
      simp
  | p, .dir n acc cs, q, hq => by
      simp only [filesUnder] at hq
      have := filesUnderKids_length (p ++ [n]) cs q hq
      simp at this
      omega

theorem filesUnderKids_length : ∀ (p : List GoStr) (cs : List FsNode)
    (q : List GoStr), q ∈ filesUnderKids p cs → p.length < q.length
  | p, [], q, hq => by simp [filesUnderKids] at hq
  | p, c :: cs, q, hq => by
      simp only [filesUnderKids, List.mem_append] at hq
      rcases hq with h | h
      · exact filesUnder_length p c q h
      · exact filesUnderKids_length p cs q h
end

theorem mem_subdirFiles_aux (l : List FsNode) (q : List GoStr)
    (hq : q ∈ l.foldr (fun c acc => filesUnder [] c ++ acc) []) :
    ∃ c ∈ l, q ∈ filesUnder [] c := by
  induction l with
  | nil => simp at hq
  | cons c cs ih =>
      simp only [List.foldr_cons, List.mem_append] at hq
      rcases hq with h | h
      · exact ⟨c, List.mem_cons_self c cs, h⟩
      · obtain ⟨d, hd, hdq⟩ := ih h
        exact ⟨d, List.mem_cons_of_mem c hd, hdq⟩

/-- A path relative to the root that lies inside a subdirectory has at least
two components. -/
theorem subdirFiles_length (root : Option FsNode) (q : List GoStr)
    (hq : q ∈ subdirFiles root) : 2 ≤ q.length := by
  match root with
  | none => simp [subdirFiles] at hq
  | some (.file m) => simp [subdirFiles] at hq
  | some (.dir n acc children) =>
      simp only [subdirFiles] at hq
      obtain ⟨c, hc, hcq⟩ := mem_subdirFiles_aux _ q hq
      have hcf : c.isFile = false := by
        have := (List.mem_filter.mp hc).2
        simpa using this
      match c, hcf with
      | .dir cn cacc ccs, _ =>
          simp only [filesUnder] at hcq
          have := filesUnderKids_length ([] ++ [cn]) ccs q hcq
          simp at this
          omega

theorem foldl_add_eq_sum (f : α → Int) : ∀ (l : List α) (a : Int),
    l.foldl (fun acc x => acc + f x) a = a + (l.map f).sum
  | [], a => by simp
  | x :: l, a => by
      simp only [List.foldl_cons, List.map_cons, List.sum_cons]
      rw [foldl_add_eq_sum f l (a + f x)]
      ring

/-- C10: provideCleanupAdvice examines only the immediate children of the
root (one non-recursive os.ReadDir, subdirectory entries skipped): every
recommended path names an immediate non-directory child, no file inside any
subdirectory of the root is ever recommended, and the potential-savings
total sums exactly the immediate candidates' sizes. -/
theorem claim_C10 (now ageThreshold sizeThreshold : Int) (root : Option FsNode)
    (response : GoStr) (entries : List DirEntry)
    (result : Option FsNode × List (List GoStr))
    (hread : readDirGo root = .ok entries)
    (hrun : provideCleanupAdvice now ageThreshold sizeThreshold root response =
      .ok result) :
    result.2 = (cleanupCandidates now ageThreshold sizeThreshold entries).map
      (fun c => [c.name]) ∧
    (∀ e ∈ cleanupCandidates now ageThreshold sizeThreshold entries,
      e.isDir = false) ∧
    (∀ q ∈ subdirFiles root, q ∉ result.2) ∧
    totalPotentialSavings now ageThreshold sizeThreshold entries =
      ((cleanupCandidates now ageThreshold sizeThreshold entries).map
        (fun e => e.size)).sum := by
  have h1 : result.2 = (cleanupCandidates now ageThreshold sizeThreshold
      entries).map (fun c => [c.name]) := by
    unfold provideCleanupAdvice at hrun
    rw [hread] at hrun
    by_cases hc : cleanupCandidates now ageThreshold sizeThreshold entries = []
    · simp [hc] at hrun
      rw [← hrun]
      simp [hc]
    · by_cases hy : yesResponse response
      · simp [hc, hy] at hrun
        rw [← hrun]
      · simp [hc, hy] at hrun
        rw [← hrun]
  refine ⟨h1, fun e he => ?_, fun q hq hmem => ?_, ?_⟩
  · have := (List.mem_filter.mp he).2
    simp only [Bool.and_eq_true, Bool.not_eq_true'] at this
    exact this.1.1
  · have hlen := subdirFiles_length root q hq
    rw [h1] at hmem
    obtain ⟨c, _, hcq⟩ := List.mem_map.mp hmem
    rw [← hcq] at hlen
    simp at hlen
  · unfold totalPotentialSavings
    rw [foldl_add_eq_sum (fun e : DirEntry => e.size) _ 0]
    ring

/-- A root with one immediate log file and one temp file inside a
subdirectory. -/
def advTree : FsNode :=
  .dir "root".toList true
    [.file ⟨"old.log".toList, 7, 0, [1], true, true⟩,
     .dir "sub".toList true [.file ⟨"deep.tmp".toList, 9, 0, [2], true, true⟩]]

/-- C10 witness: on advTree the subdirectory file sub/deep.tmp is not among
the recommended paths (only the immediate child old.log is). -/
theorem claim_C10_witness :
    ∃ result, provideCleanupAdvice 0 90 100 (some advTree) "n".toList =
      .ok result ∧ ["sub".toList, "deep.tmp".toList] ∉ result.2 :=
  ⟨_, rfl,
    (claim_C10 0 90 100 (some advTree) "n".toList _ _ rfl rfl).2.2.1
      ["sub".toList, "deep.tmp".toList] (by decide)⟩

mutual
/-- On a snapshot whose entries are all accessible, the findDuplicateFiles
walk succeeds. -/
theorem walkDupNode_ok : ∀ (p : List GoStr) (n : FsNode),
    allAccessible n = true → ∃ rs, walkDupNode p n = .ok rs
  | p, .file m, _ => ⟨[m.toRec p], rfl⟩
  | p, .dir n acc cs, h => by
      simp only [allAccessible, Bool.and_eq_true] at h
      obtain ⟨rs, hrs⟩ := walkDupKids_ok (p ++ [n]) cs h.2
      exact ⟨rs, by simp [walkDupNode, h.1, hrs]⟩

theorem walkDupKids_ok : ∀ (p : List GoStr) (cs : List FsNode),
    allAccessibleKids cs = true → ∃ rs, walkDupKids p cs = .ok rs
  | p, [], _ => ⟨[], rfl⟩
  | p, c :: cs, h => by
      simp only [allAccessibleKids, Bool.and_eq_true] at h
      have hl : c.lstatOk = true := by
        match c, h.1 with
        | .file m, hm => simpa [allAccessible, FsNode.lstatOk] using hm
        | .dir n acc ccs, _ => rfl
      obtain ⟨rs, hrs⟩ := walkDupNode_ok p c h.1
      obtain ⟨rest, hrest⟩ := walkDupKids_ok p cs h.2
      exact ⟨rs ++ rest, by simp [walkDupKids, hl, hrs, hrest]⟩
end

/-- C2 counterexample: analyzeDiskUsage on a nonexistent root does NOT fail:
its walk callback swallows the root lstat error (line 1290), so filepath.Walk
returns nil and the function reports a successful, empty analysis. -/
theorem claim_C2_counterexample :
    analyzeDiskUsage none = .ok ⟨[], [], 0⟩ := rfl

/-- C2 amended: findDuplicateFiles and provideCleanupAdvice return an error
when the root path does not exist or is not readable (and succeed on readable
roots, findDuplicateFiles provided the whole tree is accessible), but
analyzeDiskUsage never returns an error: on a bad root it produces a
successful empty result. -/
theorem claim_C2_amended (digest : List Nat → GoStr)
    (now ageThreshold sizeThreshold : Int) (response : GoStr) :
    (findDuplicateFiles digest none = .error ()) ∧
    (provideCleanupAdvice now ageThreshold sizeThreshold none response =
      .error ()) ∧
    (∀ n cs, findDuplicateFiles digest (some (.dir n false cs)) =
      .error ()) ∧
    (∀ n cs, provideCleanupAdvice now ageThreshold sizeThreshold
      (some (.dir n false cs)) response = .error ()) ∧
    (∀ root, isOkE (analyzeDiskUsage root) = true) ∧
    (analyzeDiskUsage none = .ok ⟨[], [], 0⟩) ∧
    (∀ t, allAccessible t = true →
      isOkE (findDuplicateFiles digest (some t)) = true) ∧
    (∀ n cs, isOkE (provideCleanupAdvice now ageThreshold sizeThreshold
      (some (.dir n true cs)) response) = true) := by
  refine ⟨rfl, rfl, fun n cs => rfl, fun n cs => rfl, fun root => rfl, rfl,
    fun t ht => ?_, fun n cs => ?_⟩
  · obtain ⟨rs, hrs⟩ := walkDupNode_ok [] t ht
    simp [findDuplicateFiles, dupRecords, hrs, isOkE]
  · unfold provideCleanupAdvice readDirGo
    by_cases hc : cleanupCandidates now ageThreshold sizeThreshold
        ((cs.map fun c => match c with
          | .file m => ⟨m.name, false, m.size, m.mtime, m.lstatOk⟩
          | .dir n _ _ => ⟨n, true, 0, 0, true⟩)) = []
    · simp [hc, isOkE]
    · by_cases hy : yesResponse response <;> simp [hc, hy, isOkE]

/-- C2 witness: findDuplicateFiles succeeds on a fully accessible root. -/
theorem claim_C2_witness :
    isOkE (findDuplicateFiles (fun _ => []) (some cleanupCexTree)) = true :=
  (claim_C2_amended (fun _ => []) 0 0 0 []).2.2.2.2.2.2.1 cleanupCexTree
    (by decide)

/-- A readable root with one readable file and one file whose lstat fails. -/
def walkCexTree : FsNode :=
  .dir "root".toList true
    [.file ⟨"a.txt".toList, 3, 0, [1, 2, 3], true, true⟩,
     .file ⟨"b.txt".toList, 4, 0, [9], false, true⟩]

/-- C3 counterexample: the walk underlying findDuplicateFiles does NOT skip
an unreadable descendant: its callback returns the incoming error
(lines 1200-1202), so on a readable root containing one file whose lstat
fails the whole run aborts with an error instead of returning a result for
the readable rest. -/
theorem claim_C3_counterexample :
    FsNode.lstatOk (.file ⟨"b.txt".toList, 4, 0, [9], false, true⟩) = false ∧
    findDuplicateFiles (fun _ => []) (some walkCexTree) = .error () :=
  ⟨rfl, rfl⟩

/-- C3 amended: the walk underlying analyzeDiskUsage skips an unreadable
entry (or unreadable subtree) and continues, always returning a successful
result covering the readable entries; the walk underlying findDuplicateFiles
instead aborts the whole run with an error at the first unreadable
descendant. -/
theorem claim_C3_amended (digest : List Nat → GoStr) :
    (∀ p c cs, FsNode.lstatOk c = false →
      walkUsageKids p (c :: cs) = walkUsageKids p cs) ∧
    (∀ p n cs, walkUsageNode p (.dir n false cs) = []) ∧
    (∀ root, isOkE (analyzeDiskUsage root) = true) ∧
    (usageRecords (some walkCexTree) =
      [⟨["root".toList], "a.txt".toList, 3, 0, [1, 2, 3], true⟩]) ∧
    (findDuplicateFiles digest (some walkCexTree) = .error ()) ∧
    (∀ p c cs, FsNode.lstatOk c = false →
      walkDupKids p (c :: cs) = .error ()) := by
  refine ⟨fun p c cs h => by simp [walkUsageKids, h],
    fun p n cs => rfl, fun root => rfl, rfl, rfl,
    fun p c cs h => by simp [walkDupKids, h]⟩

/-- C3 witness: a child whose lstat fails contributes nothing to the
analyzeDiskUsage walk, which simply continues. -/
theorem claim_C3_witness :
    walkUsageKids ["root".toList]
      [FsNode.file ⟨"b.txt".toList, 4, 0, [9], false, true⟩] =
      walkUsageKids ["root".toList] [] :=
  (claim_C3_amended (fun _ => [])).1 ["root".toList]
    (FsNode.file ⟨"b.txt".toList, 4, 0, [9], false, true⟩) [] rfl

/-- Total of the byte totals stored in a stats map. -/
def sumVals (m : List (κ × Int)) : Int := (m.map fun p => p.2).sum

theorem sumVals_bump [BEq κ] (m : List (κ × Int)) (k : κ) (v : Int) :
    sumVals (bump m k v) = sumVals m + v := by
  induction m with
  | nil => simp [bump, sumVals]
  | cons p rest ih =>
      rcases p with ⟨k', v'⟩
      by_cases h : k' == k
      · simp [bump, h, sumVals]
        ring
      · simp [bump, h, sumVals] at ih ⊢
        omega

theorem sumVals_foldl_bump [BEq κ] (key : FileRec → κ) :
    ∀ (rs : List FileRec) (m : List (κ × Int)),
    sumVals (rs.foldl (fun m r => bump m (key r) r.size) m) =
      sumVals m + (rs.map fun r => r.size).sum
  | [], m => by simp
  | r :: rs, m => by
      simp only [List.foldl_cons, List.map_cons, List.sum_cons]
      rw [sumVals_foldl_bump key rs (bump m (key r) r.size), sumVals_bump]
      ring

theorem sizeSum_eq (rs : List FileRec) :
    sizeSum rs = (rs.map fun r => r.size).sum := by
  unfold sizeSum
  rw [foldl_add_eq_sum (fun r : FileRec => r.size) rs 0]
  ring

/-- C6: analyzeDiskUsage satisfies the conservation invariant on every input
tree: the byType byte totals and the byDir byte totals each sum to
totalBytes (directories contribute nothing and the root entry is excluded,
both by construction of the walk records). -/
theorem claim_C6 (root : Option FsNode) (stats : UsageStats)
    (h : analyzeDiskUsage root = .ok stats) :
    sumVals stats.byType = stats.totalSize ∧
    sumVals stats.byDir = stats.totalSize := by
  unfold analyzeDiskUsage at h
  injection h with h'
  subst h'
  constructor
  · simp only [typeStats]
    rw [sumVals_foldl_bump typeKey (usageRecords root) [], sizeSum_eq]
    simp [sumVals]
  · simp only [dirStats]
    rw [sumVals_foldl_bump (fun r => r.dirPath) (usageRecords root) [],
      sizeSum_eq]
    simp [sumVals]

/-- C6 witness: conservation on the concrete advTree analysis. -/
theorem claim_C6_witness :
    ∃ stats, analyzeDiskUsage (some advTree) = .ok stats ∧
      sumVals stats.byType = stats.totalSize ∧
      sumVals stats.byDir = stats.totalSize :=
  ⟨_, rfl, claim_C6 (some advTree) _ rfl⟩

/-- C7: findDuplicateFiles hashes exactly the files lying in a size bucket
with at least two members and size strictly greater than zero, and every
emitted duplicate group has at least two members, all of which are hashed
files. -/
theorem claim_C7 (digest : List Nat → GoStr) (root : Option FsNode)
    (out : DupOutput) (hrun : findDuplicateFiles digest root = .ok out) :
    (∀ f ∈ out.hashed,
      0 < f.size ∧ 1 < (sizeBucket out.records f.size).length) ∧
    (∀ g ∈ out.groups, 1 < g.2.length) ∧
    (∀ g ∈ out.groups, ∀ f ∈ g.2, f ∈ out.hashed) := by
  unfold findDuplicateFiles at hrun
  cases hr : dupRecords root with
  | error e => rw [hr] at hrun; cases hrun
  | ok rs =>
      rw [hr] at hrun
      injection hrun with h'
      subst h'
      refine ⟨fun f hf => ?_, fun g hg => ?_, fun g hg f hf => ?_⟩
      · have := (List.mem_filter.mp hf).2
        simp only [Bool.and_eq_true, decide_eq_true_eq] at this
        exact ⟨this.2, this.1⟩
      · have := (List.mem_filter.mp hg).2
        simpa using this
      · have hg' := List.mem_of_mem_filter hg
        obtain ⟨h, _, hh⟩ := List.mem_map.mp hg'
        rw [← hh] at hf
        exact List.mem_of_mem_filter hf

/-- Two identical one-byte files under one readable root. -/
def dupTree : FsNode :=
  .dir "r".toList true
    [.file ⟨"a.txt".toList, 1, 0, [7], true, true⟩,
     .file ⟨"b.txt".toList, 1, 0, [7], true, true⟩]

/-- C7 witness: on dupTree every hashed file has positive size and sits in a
multi-member bucket. -/
theorem claim_C7_witness :
    ∃ out, findDuplicateFiles (fun _ => []) (some dupTree) = .ok out ∧
      ∀ f ∈ out.hashed,
        0 < f.size ∧ 1 < (sizeBucket out.records f.size).length :=
  ⟨_, rfl, (claim_C7 (fun _ => []) (some dupTree) _ rfl).1⟩

/-- Four files in two size buckets (sizes 1 and 2), each bucket with two
members, so all four are hashed. -/
def dupMixTree : FsNode :=
  .dir "r".toList true
    [.file ⟨"a".toList, 1, 0, [0], true, true⟩,
     .file ⟨"b".toList, 1, 0, [1], true, true⟩,
     .file ⟨"c".toList, 2, 0, [2, 2], true, true⟩,
     .file ⟨"d".toList, 2, 0, [3, 3], true, true⟩]

/-- C8 counterexample: the emitted groups do NOT always have members of one
common size, because duplicateGroups is one map shared across all size
buckets (line 1216) and nothing re-separates sizes after hashing.  With a
digest that collides across sizes (here a constant digest, standing for any
cross-size collision of the hash), the files of sizes 1 and 2 land in one
emitted group whose members differ in size. -/
theorem claim_C8_counterexample :
    ∃ out, findDuplicateFiles (fun _ => "d".toList) (some dupMixTree) =
      .ok out ∧ ∃ g ∈ out.groups, ∃ f1 ∈ g.2, ∃ f2 ∈ g.2,
        f1.size ≠ f2.size :=
  ⟨_, rfl, by decide⟩

/-- No two hashed, successfully read files of different sizes receive the
same digest (what the spec's "hashing only occurs within a size bucket"
argument implicitly assumes of the content hash). -/
def noCrossSizeCollision (digest : List Nat → GoStr) (rs : List FileRec) :
    Bool :=
  (hashedFiles rs).all fun f => (hashedFiles rs).all fun g =>
    !(f.readOk && g.readOk && digest f.content == digest g.content) ||
      f.size == g.size

/-- C8 amended: provided the digest never assigns one digest to hashed files
of different sizes, every emitted group's members share a single size, all
lie in the (multi-member, positive-size) bucket keyed by that size, and that
bucket key equals each member's size. -/
theorem claim_C8_amended (digest : List Nat → GoStr) (root : Option FsNode)
    (out : DupOutput) (hrun : findDuplicateFiles digest root = .ok out)
    (hcol : noCrossSizeCollision digest out.records = true) :
    ∀ g ∈ out.groups, ∀ f1 ∈ g.2, ∀ f2 ∈ g.2,
      f1.size = f2.size ∧ f2 ∈ sizeBucket out.records f1.size ∧
      1 < (sizeBucket out.records f1.size).length ∧ 0 < f1.size := by
  unfold findDuplicateFiles at hrun
  cases hr : dupRecords root with
  | error e => rw [hr] at hrun; cases hrun
  | ok rs =>
      rw [hr] at hrun
      injection hrun with h'
      subst h'
      intro g hg f1 hf1 f2 hf2
      obtain ⟨h, _, hh⟩ := List.mem_map.mp (List.mem_of_mem_filter hg)
      rw [← hh] at hf1 hf2
      have hm1 := List.mem_filter.mp hf1
      have hm2 := List.mem_filter.mp hf2
      simp only [Bool.and_eq_true, beq_iff_eq] at hm1 hm2
      have hd : digest f1.content = digest f2.content := by
        rw [hm1.2.2, hm2.2.2]
      simp only [noCrossSizeCollision, List.all_eq_true] at hcol
      have hsz := hcol f1 hm1.1 f2 hm2.1
      simp only [hm1.2.1, hm2.2.1, hd, Bool.and_self, beq_self_eq_true,
        Bool.not_true, Bool.false_or, beq_iff_eq] at hsz
      have hb1 := (List.mem_filter.mp hm1.1).2
      simp only [Bool.and_eq_true, decide_eq_true_eq] at hb1
      refine ⟨hsz, ?_, hb1.1, hb1.2⟩
      refine List.mem_filter.mpr ⟨List.mem_of_mem_filter hm2.1, ?_⟩
      simp [hsz]

/-- A content-determined digest that encodes the content length, so digests
never collide across sizes. -/
def lenDigest : List Nat → GoStr := fun c => [Char.ofNat (48 + c.length % 10)]

/-- C8 witness: with the length-separating digest on dupTree, the emitted
group's members indeed all share one size. -/
theorem claim_C8_witness :
    ∃ out, findDuplicateFiles lenDigest (some dupTree) = .ok out ∧
      noCrossSizeCollision lenDigest out.records = true ∧
      ∀ g ∈ out.groups, ∀ f1 ∈ g.2, ∀ f2 ∈ g.2, f1.size = f2.size :=
  ⟨_, rfl, by decide, fun g hg f1 h1 f2 h2 =>
    (claim_C8_amended lenDigest (some dupTree) _ rfl (by decide) g hg f1 h1
      f2 h2).1⟩

theorem insertDesc_perm (x : κ × Int) (l : List (κ × Int)) :
    (insertDesc x l).Perm (x :: l) := by
  induction l with
  | nil => exact List.Perm.refl _
  | cons y ys ih =>
      unfold insertDesc
      by_cases h : x.2 > y.2
      · rw [if_pos h]
      · rw [if_neg h]
        exact (ih.cons y).trans (List.Perm.swap x y ys)

theorem sortBySizeDesc_perm_aux :
    ∀ (l acc : List (κ × Int)),
    ((l.foldl (fun a x => insertDesc x a) acc)).Perm (acc ++ l)
  | [], acc => by simp
  | x :: l, acc => by
      simp only [List.foldl_cons]
      exact (sortBySizeDesc_perm_aux l (insertDesc x acc)).trans
        (((insertDesc_perm x acc).append_right l).trans List.perm_middle.symm)

theorem sortBySizeDesc_perm (l : List (κ × Int)) :
    (sortBySizeDesc l).Perm l := by
  have := sortBySizeDesc_perm_aux l []
  simpa [sortBySizeDesc] using this

/-- The output property of sort.Slice with the descending size comparator:
later entries never have a larger byte total. -/
def SortedDescBySize (l : List (κ × Int)) : Prop :=
  List.Pairwise (fun a b => b.2 ≤ a.2) l

theorem insertDesc_sorted (x : κ × Int) (l : List (κ × Int))
    (h : SortedDescBySize l) : SortedDescBySize (insertDesc x l) := by
  induction l with
  | nil => simp [insertDesc, SortedDescBySize]
  | cons y ys ih =>
      rcases List.pairwise_cons.mp h with ⟨hy, hys⟩
      unfold insertDesc
      by_cases hxy : x.2 > y.2
      · rw [if_pos hxy]
        refine List.pairwise_cons.mpr ⟨?_, h⟩
        intro b hb
        rcases List.mem_cons.mp hb with rfl | hb'
        · omega
        · have := hy b hb'
          omega
      · rw [if_neg hxy]
        refine List.pairwise_cons.mpr ⟨?_, ih hys⟩
        intro b hb
        rcases List.mem_cons.mp ((insertDesc_perm x ys).mem_iff.mp hb) with
          rfl | hb'
        · omega
        · exact hy b hb'

theorem sortBySizeDesc_sorted_aux :
    ∀ (l acc : List (κ × Int)), SortedDescBySize acc →
    SortedDescBySize (l.foldl (fun a x => insertDesc x a) acc)
  | [], _, h => h
  | x :: l, acc, h => by
      simp only [List.foldl_cons]
      exact sortBySizeDesc_sorted_aux l (insertDesc x acc)
        (insertDesc_sorted x acc h)

theorem sortBySizeDesc_sorted (l : List (κ × Int)) :
    SortedDescBySize (sortBySizeDesc l) :=
  sortBySizeDesc_sorted_aux l [] List.Pairwise.nil

/-- Two one-byte files with distinct extensions: the byType totals tie. -/
def usageTieTree : FsNode :=
  .dir "r".toList true
    [.file ⟨"a.x".toList, 1, 0, [], true, true⟩,
     .file ⟨"b.y".toList, 1, 0, [], true, true⟩]

/-- C9 counterexample: the sorted byType listing is NOT a function of the
tree alone.  analyzeDiskUsage ranges over the typeStats map (line 1335)
before sorting, and Go's map iteration order is unspecified (deliberately
randomized per range), so both orders below are possible runs on the very
same unmodified tree; with tied byte totals (two 1-byte files of different
extensions) the comparator (line 1341) is strict and the two runs produce
different listings — two runs need not yield identical output. -/
theorem claim_C9_counterexample :
    (typeStats (usageRecords (some usageTieTree))).reverse.Perm
      (typeStats (usageRecords (some usageTieTree))) ∧
    sortBySizeDesc ((typeStats (usageRecords (some usageTieTree))).reverse) ≠
      sortBySizeDesc (typeStats (usageRecords (some usageTieTree))) := by
  constructor
  · exact List.reverse_perm _
  · decide

/-- C9 amended: for any map iteration order, the output listings are sorted
descending by byte total and are permutations of the type/directory stats of
the tree — the output of analyzeDiskUsage is determined by the tree only up
to the relative ordering of entries with equal byte totals, which follows
the unspecified map iteration order. -/
theorem claim_C9_amended (root : Option FsNode)
    (tOrder : List (GoStr × Int)) (dOrder : List (List GoStr × Int))
    (ht : tOrder.Perm (typeStats (usageRecords root)))
    (hd : dOrder.Perm (dirStats (usageRecords root))) :
    (sortBySizeDesc tOrder).Perm (typeStats (usageRecords root)) ∧
    (sortBySizeDesc dOrder).Perm (dirStats (usageRecords root)) ∧
    SortedDescBySize (sortBySizeDesc tOrder) ∧
    SortedDescBySize (sortBySizeDesc dOrder) :=
  ⟨(sortBySizeDesc_perm tOrder).trans ht,
   (sortBySizeDesc_perm dOrder).trans hd,
   sortBySizeDesc_sorted tOrder, sortBySizeDesc_sorted dOrder⟩

/-- C9 witness: the amended statement at the concrete tie tree with the
first-insertion iteration order. -/
theorem claim_C9_witness :
    (sortBySizeDesc (typeStats (usageRecords (some usageTieTree)))).Perm
      (typeStats (usageRecords (some usageTieTree))) :=
  (claim_C9_amended (some usageTieTree) _ _ (List.Perm.refl _)
    (List.Perm.refl _)).1
